import Mathlib

/- Verification development for the index oracle of
   src/scraping/index_data_scraper.py: a shallow embedding of the fee
   calculator, the anti detection session, the extraction retry loop, the
   blockchain bridge and the pipeline run, together with theorems about the
   behaviour claimed in the specification. Machine floats of the source are
   modelled as rational numbers; the Python float literal 0.33 is modelled as
   33/100 (the two differ by about 1.6e-17, far from every branch boundary and
   rounding boundary used below). -/

/-- Configuration value OracleConfig.INDEX_BASELINE, source line 83. -/
def INDEX_BASELINE : ℚ := 1500

/-- Configuration value OracleConfig.MIN_FEE_RATE, source line 84. -/
def MIN_FEE_RATE : ℤ := 10

/-- Configuration value OracleConfig.MAX_FEE_RATE, source line 85. -/
def MAX_FEE_RATE : ℤ := 100

/-- Configuration value OracleConfig.DEFAULT_FEE_RATE, source line 86. -/
def DEFAULT_FEE_RATE : ℤ := 50

/-- Configuration value OracleConfig.SESSION_DURATION_HOURS, source line 94. -/
def SESSION_DURATION_HOURS : ℚ := 168

/-- Configuration value OracleConfig.GAS_LIMIT, source line 111. -/
def GAS_LIMIT : ℕ := 200000

/-- Configuration value OracleConfig.MAX_GAS_PRICE_GWEI, source line 112. -/
def MAX_GAS_PRICE_GWEI : ℕ := 50

/-- Default configuration value OracleConfig.CHAIN_ID, source line 108. -/
def CHAIN_ID : ℕ := 11155111

/-- Rounding to the nearest integer with ties going to the even integer: the
behaviour of the builtin round function of Python 3, applied by the source as
int(round(fee_rate)) at line 315. -/
def pyRound (q : ℚ) : ℤ :=
  if q - ⌊q⌋ < 1/2 then ⌊q⌋
  else if 1/2 < q - ⌊q⌋ then ⌊q⌋ + 1
  else if ⌊q⌋ % 2 = 0 then ⌊q⌋ else ⌊q⌋ + 1

/-- Truncation toward zero: the behaviour of int() applied to a Python float,
used at source line 209 to convert the index value for the contract call. -/
def pyInt (q : ℚ) : ℤ := if q < 0 then -⌊-q⌋ else ⌊q⌋

/-- Unclamped linear interpolation computed at source line 311:
fee_rate = max_fee - (index_value - lower_bound) * (max_fee - min_fee) /
(upper_bound - lower_bound), with lower_bound = baseline * 0.33 and
upper_bound = baseline * 2 from source lines 308 and 309. -/
def fee_rate_raw (index_value : ℚ) : ℚ :=
  (MAX_FEE_RATE : ℚ) -
    (index_value - INDEX_BASELINE * (33/100)) * ((MAX_FEE_RATE : ℚ) - (MIN_FEE_RATE : ℚ)) /
      (INDEX_BASELINE * 2 - INDEX_BASELINE * (33/100))

/-- Paranoid integer boundary enforcement of source lines 318 to 321; the
source applies the lower check and then the upper check to its result
sequentially, which since MIN_FEE_RATE is at most MAX_FEE_RATE is the same
function as this nested conditional. -/
def double_check_bounds (r : ℤ) : ℤ :=
  if r < MIN_FEE_RATE then MIN_FEE_RATE
  else if r > MAX_FEE_RATE then MAX_FEE_RATE
  else r

/-- DynamicFeeCalculator.calculate_fee_rate, source lines 271 to 327: default
on nonpositive input, extreme value clamps, then linear inverse interpolation,
a rational clamp (line 314), rounding to int (line 315) and the double check
of the integer boundaries (lines 318 to 321). -/
def calculate_fee_rate (index_value : ℚ) : ℤ :=
  if index_value ≤ 0 then DEFAULT_FEE_RATE
  else if index_value ≥ INDEX_BASELINE * 2 then MIN_FEE_RATE
  else if index_value ≤ INDEX_BASELINE * (33/100) then MAX_FEE_RATE
  else
    double_check_bounds
      (pyRound (max (MIN_FEE_RATE : ℚ) (min (MAX_FEE_RATE : ℚ) (fee_rate_raw index_value))))

/-- Market classification chosen by DynamicFeeCalculator.get_fee_explanation,
source lines 329 to 344. The source returns this classification with formatted
numeric values appended; the appended text is presentation only and carries no
branching, so only the classification is modelled. -/
def get_fee_explanation_trend (index_value : ℚ) : String :=
  if index_value ≥ INDEX_BASELINE then
    if index_value ≥ INDEX_BASELINE * (3/2) then "INDEX VERY HIGH -> Market excellent -> Min fee"
    else "INDEX HIGH -> Market good -> Low fee"
  else
    if index_value ≤ INDEX_BASELINE * (1/2) then "INDEX VERY LOW -> Market stressed -> Max fee"
    else "INDEX LOW -> Market weak -> High fee"

/- Lemmas about pyRound. -/

/-- Value of pyRound on any input strictly between n - 1/2 and n + 1/2. -/
lemma pyRound_eq {q : ℚ} {n : ℤ} (h1 : (n : ℚ) - 1/2 < q) (h2 : q < (n : ℚ) + 1/2) :
    pyRound q = n := by
  rcases le_or_lt (n : ℚ) q with hq | hq
  · have hfl : ⌊q⌋ = n := by
      rw [Int.floor_eq_iff]
      exact ⟨hq, by linarith⟩
    unfold pyRound
    rw [hfl, if_pos (show q - (n : ℚ) < 1/2 by linarith)]
  · have hfl : ⌊q⌋ = n - 1 := by
      rw [Int.floor_eq_iff]
      constructor
      · push_cast; linarith
      · push_cast; linarith
    unfold pyRound
    rw [hfl, if_neg (not_lt.mpr (show (1:ℚ)/2 ≤ q - ((n - 1 : ℤ) : ℚ) by push_cast; linarith)),
      if_pos (show (1:ℚ)/2 < q - ((n - 1 : ℤ) : ℚ) by push_cast; linarith)]
    omega

/-- Upper bound of pyRound. -/
lemma pyRound_le (q : ℚ) : (pyRound q : ℚ) ≤ q + 1/2 := by
  have h0 := Int.floor_le q
  have h1 := Int.lt_floor_add_one q
  unfold pyRound
  split_ifs with ha hb hc <;> push_cast <;> linarith

/-- Lower bound of pyRound. -/
lemma le_pyRound (q : ℚ) : q - 1/2 ≤ (pyRound q : ℚ) := by
  have h0 := Int.floor_le q
  have h1 := Int.lt_floor_add_one q
  unfold pyRound
  split_ifs with ha hb hc <;> push_cast <;> linarith

/-- Monotonicity of rounding half to even. -/
lemma pyRound_mono {a b : ℚ} (h : a ≤ b) : pyRound a ≤ pyRound b := by
  by_contra hc
  push_neg at hc
  have h1 : pyRound b + 1 ≤ pyRound a := Int.add_one_le_iff.mpr hc
  have h1q : (pyRound b : ℚ) + 1 ≤ (pyRound a : ℚ) := by exact_mod_cast h1
  have h2 := pyRound_le a
  have h3 := le_pyRound b
  have hab : a = b := le_antisymm h (by linarith)
  subst hab
  exact absurd hc (lt_irrefl _)

/- Lemmas about the integer double check. -/

/-- Monotonicity of the double check of the boundaries. -/
lemma double_check_bounds_mono {r s : ℤ} (h : r ≤ s) :
    double_check_bounds r ≤ double_check_bounds s := by
  unfold double_check_bounds MIN_FEE_RATE MAX_FEE_RATE
  split_ifs <;> omega

/-- Range of the double check of the boundaries. -/
lemma double_check_bounds_range (r : ℤ) :
    MIN_FEE_RATE ≤ double_check_bounds r ∧ double_check_bounds r ≤ MAX_FEE_RATE := by
  unfold double_check_bounds MIN_FEE_RATE MAX_FEE_RATE
  split_ifs <;> omega

/- Branch evaluation of calculate_fee_rate. -/

/-- Nonpositive branch, source lines 290 to 292. -/
lemma calculate_fee_rate_nonpos {x : ℚ} (h : x ≤ 0) :
    calculate_fee_rate x = DEFAULT_FEE_RATE := by
  unfold calculate_fee_rate
  rw [if_pos h]

/-- Very high branch, source lines 295 to 297. -/
lemma calculate_fee_rate_hi {x : ℚ} (h1 : INDEX_BASELINE * 2 ≤ x) :
    calculate_fee_rate x = MIN_FEE_RATE := by
  have h0 : ¬(x ≤ 0) := by unfold INDEX_BASELINE at h1; intro h; linarith
  unfold calculate_fee_rate
  rw [if_neg h0, if_pos h1]

/-- Very low branch, source lines 299 to 301. -/
lemma calculate_fee_rate_lo {x : ℚ} (h0 : 0 < x) (h2 : x ≤ INDEX_BASELINE * (33/100)) :
    calculate_fee_rate x = MAX_FEE_RATE := by
  have h1 : ¬(x ≥ INDEX_BASELINE * 2) := by
    unfold INDEX_BASELINE at h2 ⊢; intro h; linarith
  unfold calculate_fee_rate
  rw [if_neg (not_le.mpr h0), if_neg h1, if_pos h2]

/-- Interpolation branch, source lines 308 to 323. -/
lemma calculate_fee_rate_band {x : ℚ} (h1 : x < INDEX_BASELINE * 2)
    (h2 : INDEX_BASELINE * (33/100) < x) :
    calculate_fee_rate x =
      double_check_bounds
        (pyRound (max (MIN_FEE_RATE : ℚ) (min (MAX_FEE_RATE : ℚ) (fee_rate_raw x)))) := by
  have h0 : ¬(x ≤ 0) := by unfold INDEX_BASELINE at h2; intro h; linarith
  unfold calculate_fee_rate
  rw [if_neg h0, if_neg (not_le.mpr h1), if_neg (not_le.mpr h2)]

/-- Strict antitonicity of the unclamped interpolation. -/
lemma fee_rate_raw_strict_anti {a b : ℚ} (h : a < b) : fee_rate_raw b < fee_rate_raw a := by
  unfold fee_rate_raw INDEX_BASELINE MAX_FEE_RATE MIN_FEE_RATE
  push_cast
  linarith

/-- Lower bound of calculate_fee_rate on every input. -/
lemma calculate_fee_rate_ge_min (x : ℚ) : MIN_FEE_RATE ≤ calculate_fee_rate x := by
  rcases le_or_lt x 0 with h | h0
  · rw [calculate_fee_rate_nonpos h]; decide
  · rcases le_or_lt (INDEX_BASELINE * 2) x with h1 | h1
    · rw [calculate_fee_rate_hi h1]
    · rcases le_or_lt x (INDEX_BASELINE * (33/100)) with h2 | h2
      · rw [calculate_fee_rate_lo h0 h2]; decide
      · rw [calculate_fee_rate_band h1 h2]
        exact (double_check_bounds_range _).1

/-- Upper bound of calculate_fee_rate on every input. -/
lemma calculate_fee_rate_le_max (x : ℚ) : calculate_fee_rate x ≤ MAX_FEE_RATE := by
  rcases le_or_lt x 0 with h | h0
  · rw [calculate_fee_rate_nonpos h]; decide
  · rcases le_or_lt (INDEX_BASELINE * 2) x with h1 | h1
    · rw [calculate_fee_rate_hi h1]; decide
    · rcases le_or_lt x (INDEX_BASELINE * (33/100)) with h2 | h2
      · rw [calculate_fee_rate_lo h0 h2]
      · rw [calculate_fee_rate_band h1 h2]
        exact (double_check_bounds_range _).2

/-- Antitonicity of calculate_fee_rate on positive inputs. -/
lemma calculate_fee_rate_anti {a b : ℚ} (ha : 0 < a) (hab : a ≤ b) :
    calculate_fee_rate b ≤ calculate_fee_rate a := by
  rcases le_or_lt (INDEX_BASELINE * 2) b with hb2 | hb2
  · rw [calculate_fee_rate_hi hb2]
    exact calculate_fee_rate_ge_min a
  · rcases le_or_lt b (INDEX_BASELINE * (33/100)) with hb3 | hb3
    · have hb0 : 0 < b := lt_of_lt_of_le ha hab
      rw [calculate_fee_rate_lo hb0 hb3, calculate_fee_rate_lo ha (le_trans hab hb3)]
    · rcases le_or_lt a (INDEX_BASELINE * (33/100)) with ha3 | ha3
      · rw [calculate_fee_rate_lo ha ha3]
        exact calculate_fee_rate_le_max b
      · rw [calculate_fee_rate_band hb2 hb3,
          calculate_fee_rate_band (lt_of_le_of_lt hab hb2) ha3]
        apply double_check_bounds_mono
        apply pyRound_mono
        have hraw : fee_rate_raw b ≤ fee_rate_raw a := by
          rcases eq_or_lt_of_le hab with rfl | hlt
          · exact le_refl _
          · exact le_of_lt (fee_rate_raw_strict_anti hlt)
        exact max_le_max (le_refl _) (min_le_min (le_refl _) hraw)

/-- Evaluation scheme for calculate_fee_rate inside the interpolation band. -/
lemma calculate_fee_rate_eval {x v : ℚ} {n : ℤ} (h1 : x < INDEX_BASELINE * 2)
    (h2 : INDEX_BASELINE * (33/100) < x) (hraw : fee_rate_raw x = v)
    (hv1 : (MIN_FEE_RATE : ℚ) ≤ v) (hv2 : v ≤ (MAX_FEE_RATE : ℚ))
    (hn1 : (n : ℚ) - 1/2 < v) (hn2 : v < (n : ℚ) + 1/2)
    (hm1 : MIN_FEE_RATE ≤ n) (hm2 : n ≤ MAX_FEE_RATE) :
    calculate_fee_rate x = n := by
  rw [calculate_fee_rate_band h1 h2, hraw, min_eq_right hv2, max_eq_right hv1,
    pyRound_eq hn1 hn2]
  unfold double_check_bounds
  rw [if_neg (not_lt.mpr hm1), if_neg (not_lt.mpr hm2)]

/-- Concrete value at the baseline: calculate_fee_rate 1500 = 64. -/
lemma fee_at_1500 : calculate_fee_rate 1500 = 64 := by
  apply calculate_fee_rate_eval (v := 10670/167) (n := 64) <;>
    norm_num [fee_rate_raw, INDEX_BASELINE, MIN_FEE_RATE, MAX_FEE_RATE]

/-- Concrete value inside the band: calculate_fee_rate 1000 = 82. -/
lemma fee_at_1000 : calculate_fee_rate 1000 = 82 := by
  apply calculate_fee_rate_eval (v := 13670/167) (n := 82) <;>
    norm_num [fee_rate_raw, INDEX_BASELINE, MIN_FEE_RATE, MAX_FEE_RATE]

/-- Concrete value inside the band: calculate_fee_rate 1001 = 82. -/
lemma fee_at_1001 : calculate_fee_rate 1001 = 82 := by
  apply calculate_fee_rate_eval (v := 13664/167) (n := 82) <;>
    norm_num [fee_rate_raw, INDEX_BASELINE, MIN_FEE_RATE, MAX_FEE_RATE]

/- Session management of Level5AntiDetection. -/

/-- Session state of Level5AntiDetection (source lines 411 to 414): the stored
requests.Session object is modelled by a natural number token and the stored
session_start_time by a rational number of hours. -/
structure SessionState where
  current_session : Option ℕ
  session_start_time : Option ℚ
  deriving DecidableEq

/-- Level5AntiDetection.get_session (source lines 416 to 427) together with
_create_new_session (source lines 429 to 442): a new session is created when
no session or no start time is stored or when now - session_start_time
strictly exceeds the session duration; the randomly assembled new session
object is abstracted as the argument fresh. Returns the session handed back
together with the updated state. -/
def get_session (st : SessionState) (now : ℚ) (fresh : ℕ) : ℕ × SessionState :=
  match st.current_session, st.session_start_time with
  | some s, some start =>
      if now - start > SESSION_DURATION_HOURS then (fresh, ⟨some fresh, some now⟩)
      else (s, st)
  | _, _ => (fresh, ⟨some fresh, some now⟩)

/- Extraction retry loop of IndexExtractor. -/

/-- Attempt loop of IndexExtractor.extract_index_with_retry (source lines 469
to 507), abstracted over the outcome of each iteration body: attempts i is
the value and raw text extracted at iteration i, none when that iteration
raised. The first component is the returned value, the second counts the
iterations actually performed. -/
def extract_loop (attempts : ℕ → Option (ℚ × String)) : ℕ → ℕ → Option (ℚ × String) × ℕ
  | _, 0 => (none, 0)
  | i, n + 1 =>
    match attempts i with
    | some r => (some r, 1)
    | none =>
      let p := extract_loop attempts (i + 1) n
      (p.1, p.2 + 1)

/-- IndexExtractor.extract_index_with_retry (source lines 467 to 510): runs
the attempt loop for maxRetries iterations starting at attempt 0 and returns
None after exhausting them (source line 510). Delays and logging perform no
data flow and are not modelled. -/
def extract_index_with_retry (attempts : ℕ → Option (ℚ × String)) (maxRetries : ℕ) :
    Option (ℚ × String) × ℕ :=
  extract_loop attempts 0 maxRetries

/- Blockchain bridge. -/

/-- Outcome of the wait_for_transaction_receipt call at source line 241:
confirmed is a receipt with status 1, reverted a receipt with any other
status, error an exception or timeout while waiting. -/
inductive ReceiptOutcome
  | confirmed (blockNumber : ℕ)
  | reverted
  | error
  deriving DecidableEq

/-- Kinds of network interaction performed by one iteration of
BlockchainBridge.send_fee_update. -/
inductive NetworkCall
  | gasPriceRead
  | nonceRead
  | submitTx
  | receiptWait
  deriving DecidableEq

/-- Environment of one iteration of the send loop: the gas price and nonce the
network reports, the hash a submitted transaction gets, whether the iteration
reaches a successful send_raw_transaction (submit_ok = false models an
exception anywhere in the build, sign or submit steps), the receipt outcome,
and the network calls made before the exception when the iteration raises. -/
structure TxEnv where
  gas_price : ℕ
  nonce : ℕ
  tx_hash : String
  submit_ok : Bool
  receipt : ReceiptOutcome
  failed_calls : List NetworkCall
  deriving DecidableEq

/-- Fields of the transaction dictionary built at source lines 219 to 228. -/
structure BuiltTx where
  gas : ℕ
  gasPrice : ℕ
  nonce : ℕ
  chainId : ℕ
  feeRate : ℤ
  indexValue : ℤ
  deriving DecidableEq

/-- Maximum gas price in wei: to_wei(MAX_GAS_PRICE_GWEI, gwei), source
line 213. -/
def max_gas_price_wei : ℕ := MAX_GAS_PRICE_GWEI * 1000000000

/-- Transaction built at source lines 219 to 228: the gas price is
min(gas_price, max_gas_price) from source line 225 and the index value
argument is truncated with int() at source line 209. -/
def build_transaction (env : TxEnv) (fee_rate : ℤ) (index_value : ℚ) : BuiltTx :=
  { gas := GAS_LIMIT
    gasPrice := min env.gas_price max_gas_price_wei
    nonce := env.nonce
    chainId := CHAIN_ID
    feeRate := fee_rate
    indexValue := pyInt index_value }

/-- Result of one iteration of the attempt loop of send_fee_update: done r
models a return statement with value r, retry models falling into the except
branch at source lines 254 to 259 and continuing the loop. -/
inductive AttemptResult
  | done (r : Option String)
  | retry
  deriving DecidableEq

/-- One iteration of the attempt loop of send_fee_update (source lines 204 to
259). A gas price above the cap only changes the built transaction through
min; it never ends the iteration. After a successful submission the receipt
wait decides the returned value: status 1 returns the hash (line 245), any
other status returns None (line 248), and an exception while waiting returns
the hash (line 252). Alongside the result are the transactions submitted and
the network calls made by the iteration. -/
def send_attempt (env : TxEnv) (fee_rate : ℤ) (index_value : ℚ) :
    AttemptResult × List BuiltTx × List NetworkCall :=
  if env.submit_ok then
    (match env.receipt with
      | ReceiptOutcome.confirmed _ => AttemptResult.done (some env.tx_hash)
      | ReceiptOutcome.reverted => AttemptResult.done none
      | ReceiptOutcome.error => AttemptResult.done (some env.tx_hash),
     [build_transaction env fee_rate index_value],
     [NetworkCall.gasPriceRead, NetworkCall.nonceRead, NetworkCall.submitTx,
      NetworkCall.receiptWait])
  else (AttemptResult.retry, [], env.failed_calls)

/-- Aggregate outcome of send_fee_update: the returned value (a transaction
hash or None), every transaction submitted across the attempts, and every
network call made. -/
structure SendOutcome where
  result : Option String
  submitted : List BuiltTx
  calls : List NetworkCall
  deriving DecidableEq

/-- Attempt loop of send_fee_update (source lines 204 to 262), one TxEnv per
iteration; an exhausted list models exhausted retries, returning None at
source line 262. -/
def send_loop (fee_rate : ℤ) (index_value : ℚ) : List TxEnv → SendOutcome
  | [] => ⟨none, [], []⟩
  | env :: rest =>
    match send_attempt env fee_rate index_value with
    | (AttemptResult.done r, txs, calls) => ⟨r, txs, calls⟩
    | (AttemptResult.retry, txs, calls) =>
      let o := send_loop fee_rate index_value rest
      ⟨o.result, txs ++ o.submitted, calls ++ o.calls⟩

/-- BlockchainBridge.send_fee_update (source lines 189 to 262): when the
bridge is not enabled it returns None at once (source lines 200 to 202),
submitting nothing and making no network call. -/
def send_fee_update (enabled : Bool) (fee_rate : ℤ) (index_value : ℚ)
    (envs : List TxEnv) : SendOutcome :=
  if enabled then send_loop fee_rate index_value envs else ⟨none, [], []⟩

/-- Configuration read by the guard checks of the BlockchainBridge setup,
source lines 137 to 147. -/
structure BridgeConfig where
  rpc_url : String
  private_key : String
  contract_address : String
  deriving DecidableEq

/-- Whether pat occurs in l as a contiguous run. -/
def occursIn (pat : List Char) : List Char → Bool
  | [] => pat.isEmpty
  | c :: rest => pat.isPrefixOf (c :: rest) || occursIn pat rest

/-- The Python membership test pat in s on strings. -/
def strContains (s pat : String) : Bool := occursIn pat.data s.data

/-- Whether the BlockchainBridge becomes enabled (source lines 120 to 187):
Web3 must be importable (line 127), the RPC URL must be set and free of the
placeholder (line 137), the private key (line 141) and the contract address
(line 145) must be nonempty, the endpoint must be reachable (line 152,
connected) and the account and contract setup must not raise (setupOk); any
failed check leaves enabled = False. -/
def bridge_enabled_flag (web3Available : Bool) (cfg : BridgeConfig)
    (connected setupOk : Bool) : Bool :=
  if ¬web3Available then false
  else if cfg.rpc_url = "" ∨ strContains cfg.rpc_url "YOUR_API_KEY" then false
  else if cfg.private_key = "" then false
  else if cfg.contract_address = "" then false
  else if ¬connected then false
  else setupOk

/- Pipeline run of IndexOracleSystem. -/

/-- Fields of the data record built at source lines 673 to 684 that carry
state used by the claims; timestamp, the percent form of the fee, the
extraction method constant and the session age are presentation fields and
are omitted. -/
structure DataRecord where
  index_value : ℚ
  index_text : String
  fee_rate_bp : ℤ
  fee_explanation : String
  blockchain_tx_hash : String
  blockchain_status : String
  deriving DecidableEq

/-- IndexOracleSystem.run_oracle_update (source lines 621 to 707):
fetch_result is what extract_index_with_retry returned, enabled whether the
blockchain bridge is enabled, envs the per iteration environments of the send
loop. Returns the list of records handed to
DataStorageManager.save_oracle_data, together with the boolean return value.
On a fetch failure the method returns False at source line 630 before any
record is built; otherwise exactly one record is built and saved, with the
blockchain status computed at source lines 648 to 662. -/
def run_oracle_update (fetch_result : Option (ℚ × String)) (enabled : Bool)
    (envs : List TxEnv) : List DataRecord × Bool :=
  match fetch_result with
  | none => ([], false)
  | some (index_value, index_text) =>
    let fee_rate := calculate_fee_rate index_value
    let fee_explanation := get_fee_explanation_trend index_value
    let tx_hash :=
      if enabled then (send_fee_update enabled fee_rate index_value envs).result else none
    let status :=
      if enabled then
        (match tx_hash with
          | some _ => "success"
          | none => "failed")
      else "disabled"
    ([{ index_value := index_value
        index_text := index_text
        fee_rate_bp := fee_rate
        fee_explanation := fee_explanation
        blockchain_tx_hash := tx_hash.getD ""
        blockchain_status := status }], true)

/- Lemmas about the extraction retry loop. -/

/-- The loop performs at most n iterations. -/
lemma extract_loop_count (f : ℕ → Option (ℚ × String)) :
    ∀ (n i : ℕ), (extract_loop f i n).2 ≤ n := by
  intro n
  induction n with
  | zero => intro i; simp [extract_loop]
  | succ m ih =>
    intro i
    cases h : f i with
    | some r => simp [extract_loop, h]
    | none =>
      simp only [extract_loop, h]
      have := ih (i + 1)
      omega

/-- The loop returns none exactly when every iteration fails. -/
lemma extract_loop_none (f : ℕ → Option (ℚ × String)) :
    ∀ (n i : ℕ), ((extract_loop f i n).1 = none ↔ ∀ k < n, f (i + k) = none) := by
  intro n
  induction n with
  | zero => intro i; simp [extract_loop]
  | succ m ih =>
    intro i
    cases h : f i with
    | some r =>
      simp only [extract_loop, h]
      constructor
      · intro hc; exact Option.noConfusion hc
      · intro hall
        have h0 := hall 0 (Nat.succ_pos m)
        rw [Nat.add_zero, h] at h0
        exact Option.noConfusion h0
    | none =>
      simp only [extract_loop, h]
      rw [ih (i + 1)]
      constructor
      · intro hall k hk
        cases k with
        | zero => rw [Nat.add_zero]; exact h
        | succ j =>
          have hj := hall j (by omega)
          rw [show i + 1 + j = i + (j + 1) by omega] at hj
          exact hj
      · intro hall k hk
        have hj := hall (k + 1) (by omega)
        rw [show i + (k + 1) = i + 1 + k by omega] at hj
        exact hj

/-- The loop returns the value of the first succeeding iteration. -/
lemma extract_loop_first (f : ℕ → Option (ℚ × String)) :
    ∀ (n i j : ℕ), j < n → (∀ k < j, f (i + k) = none) → f (i + j) ≠ none →
      (extract_loop f i n).1 = f (i + j) := by
  intro n
  induction n with
  | zero => intro i j hj; exact absurd hj (Nat.not_lt_zero j)
  | succ m ih =>
    intro i j hj hprev hsome
    cases j with
    | zero =>
      rw [Nat.add_zero] at hsome ⊢
      cases h : f i with
      | none => exact absurd h hsome
      | some r => simp [extract_loop, h]
    | succ jj =>
      have hfi : f i = none := by
        have h0 := hprev 0 (Nat.succ_pos jj)
        rwa [Nat.add_zero] at h0
      simp only [extract_loop, hfi]
      rw [show i + (jj + 1) = i + 1 + jj by omega] at hsome ⊢
      exact ih (i + 1) jj (by omega)
        (fun k hk => by
          have hp := hprev (k + 1) (by omega)
          rwa [show i + (k + 1) = i + 1 + k by omega] at hp) hsome

/- Claim theorems. -/

/-- C1, counterexample to the claim as stated: on a run whose fetch returned
None, run_oracle_update hands zero records to persistence (and returns False);
it does not produce exactly one OracleRunRecord marked as a fetch failure. -/
theorem C1_counterexample :
    (run_oracle_update none true []).1 = [] ∧
    (run_oracle_update none true []).1.length ≠ 1 ∧
    (run_oracle_update none true []).2 = false :=
  ⟨rfl, by simp [run_oracle_update], rfl⟩

/-- C1, amended: a run persists exactly one record when the fetch succeeded
and zero records when it failed; the fetch failure run returns False with no
record, visible only in the log. -/
theorem C1_record_iff_fetch :
    ∀ (fetch_result : Option (ℚ × String)) (enabled : Bool) (envs : List TxEnv),
      (run_oracle_update fetch_result enabled envs).1.length =
        (if fetch_result.isSome then 1 else 0) ∧
      run_oracle_update none enabled envs = ([], false) := by
  intro fr e envs
  constructor
  · cases fr with
    | none => simp [run_oracle_update]
    | some p =>
      cases p
      simp [run_oracle_update]
  · rfl

/-- Environment of a send attempt whose submission succeeds and whose receipt
wait raises. -/
def env_receipt_error : TxEnv :=
  { gas_price := 20000000000
    nonce := 5
    tx_hash := "0xabc"
    submit_ok := true
    receipt := ReceiptOutcome.error
    failed_calls := [] }

/-- C2, counterexample to the claim as stated: when the receipt wait raises
after a successful submit, the run reports blockchain_status success — the
same status as a confirmed success — so the submitted but unconfirmed outcome
is not surfaced distinctly from confirmed success. -/
theorem C2_counterexample :
    ((run_oracle_update (some (1500, "1,500.00")) true [env_receipt_error]).1.map
        fun r => r.blockchain_status) = ["success"] ∧
    ((run_oracle_update (some (1500, "1,500.00")) true
          [{ env_receipt_error with receipt := ReceiptOutcome.confirmed 3 }]).1.map
        fun r => r.blockchain_status) = ["success"] := by
  constructor <;>
    simp [run_oracle_update, send_fee_update, send_loop, send_attempt, env_receipt_error]

/-- C2, amended: when the raw transaction is submitted successfully and the
receipt wait itself raises or times out, send_fee_update returns the
transaction hash (not None, so the run is not marked failed), but this return
value is identical to the one of a confirmed success, and the pipeline
records both as status success: the outcome is not surfaced distinctly. -/
theorem C2_submit_wait_error :
    ∀ (env : TxEnv) (envs : List TxEnv) (fee : ℤ) (idx : ℚ) (bn : ℕ),
      env.submit_ok = true → env.receipt = ReceiptOutcome.error →
      (send_fee_update true fee idx (env :: envs)).result = some env.tx_hash ∧
      (send_fee_update true fee idx (env :: envs)).result =
        (send_fee_update true fee idx
          ({ env with receipt := ReceiptOutcome.confirmed bn } :: envs)).result := by
  intro env envs fee idx bn hok hrec
  constructor <;> simp [send_fee_update, send_loop, send_attempt, hok, hrec]

/-- C2, witness for the amended theorem at a concrete environment. -/
theorem C2_witness :
    (send_fee_update true 64 1500 [env_receipt_error]).result = some "0xabc" ∧
    (send_fee_update true 64 1500 [env_receipt_error]).result =
      (send_fee_update true 64 1500
        [{ env_receipt_error with receipt := ReceiptOutcome.confirmed 3 }]).result := by
  have h := C2_submit_wait_error env_receipt_error [] 64 1500 3 rfl rfl
  exact ⟨h.1, h.2⟩

/-- C3: the code evaluated at the failing input 1500 (the baseline): the
formula of calculate_fee_rate yields 64, while the comment at source
line 305 and the specification state that index 1500 maps to 50. -/
theorem C3_fee_at_baseline : calculate_fee_rate 1500 = 64 ∧ calculate_fee_rate 1500 ≠ 50 := by
  refine ⟨fee_at_1500, ?_⟩
  rw [fee_at_1500]
  decide

/-- C4: for every index value, also nonpositive ones, the computed fee rate
lies in the closed range from MIN_FEE_RATE to MAX_FEE_RATE. -/
theorem C4_fee_bounded :
    ∀ x : ℚ, MIN_FEE_RATE ≤ calculate_fee_rate x ∧ calculate_fee_rate x ≤ MAX_FEE_RATE :=
  fun x => ⟨calculate_fee_rate_ge_min x, calculate_fee_rate_le_max x⟩

/-- C5, counterexample to the claim as stated: 1000 and 1001 lie strictly
inside the interpolation band and 1000 < 1001, yet both map to fee rate 82,
so calculate_fee_rate is not strictly decreasing inside the band. -/
theorem C5_counterexample :
    (1000 : ℚ) < 1001 ∧ INDEX_BASELINE * (33/100) < (1000 : ℚ) ∧
    (1001 : ℚ) < INDEX_BASELINE * 2 ∧
    calculate_fee_rate 1000 = calculate_fee_rate 1001 := by
  refine ⟨by norm_num, by norm_num [INDEX_BASELINE], by norm_num [INDEX_BASELINE], ?_⟩
  rw [fee_at_1000, fee_at_1001]

/-- C5, amended: calculate_fee_rate is non increasing on positive inputs, and
the interpolation value before rounding is strictly decreasing; the rounded
integer output however is only non increasing, since nearby inputs round to
the same integer. -/
theorem C5_fee_antitone :
    (∀ a b : ℚ, 0 < a → a ≤ b → calculate_fee_rate b ≤ calculate_fee_rate a) ∧
    (∀ a b : ℚ, a < b → fee_rate_raw b < fee_rate_raw a) :=
  ⟨fun _ _ ha hab => calculate_fee_rate_anti ha hab,
   fun _ _ h => fee_rate_raw_strict_anti h⟩

/-- C5, witness for the amended theorem at concrete inputs. -/
theorem C5_witness :
    calculate_fee_rate 2000 ≤ calculate_fee_rate 1000 ∧
    fee_rate_raw 1001 < fee_rate_raw 1000 :=
  ⟨C5_fee_antitone.1 1000 2000 (by norm_num) (by norm_num),
   C5_fee_antitone.2 1000 1001 (by norm_num)⟩

/-- C6: for every attempt oracle and every bound N at least 1, the retry
wrapper performs at most N underlying attempts, returns none exactly when
all N attempts fail, and otherwise returns the extracted pair of the first
successful attempt. -/
theorem C6_retry_contract :
    ∀ (attempts : ℕ → Option (ℚ × String)) (N : ℕ), 1 ≤ N →
      (extract_index_with_retry attempts N).2 ≤ N ∧
      ((extract_index_with_retry attempts N).1 = none ↔ ∀ k < N, attempts k = none) ∧
      (∀ j < N, (∀ k < j, attempts k = none) → attempts j ≠ none →
        (extract_index_with_retry attempts N).1 = attempts j) := by
  intro f N _
  refine ⟨extract_loop_count f N 0, ?_, ?_⟩
  · have h := extract_loop_none f N 0
    simpa using h
  · intro j hj hprev hsome
    have h := extract_loop_first f N 0 j hj
      (fun k hk => by simpa using hprev k hk) (by simpa using hsome)
    simpa using h

/-- Attempt oracle with a failure at attempt 0 and a success at attempt 1. -/
def wAttempts : ℕ → Option (ℚ × String) := fun k => if k = 1 then some (42, "42") else none

/-- C6, witness at a concrete attempt oracle and N = 3. -/
theorem C6_witness :
    (extract_index_with_retry wAttempts 3).2 ≤ 3 ∧
    (extract_index_with_retry wAttempts 3).1 = wAttempts 1 := by
  refine ⟨(C6_retry_contract wAttempts 3 (by norm_num)).1, ?_⟩
  exact (C6_retry_contract wAttempts 3 (by norm_num)).2.2 1 (by norm_num)
    (fun k hk => by
      have hk0 : k = 0 := by omega
      subst hk0
      simp [wAttempts])
    (by simp [wAttempts])

/-- C7: when the signing credential, the RPC endpoint or the contract address
is absent, the bridge stays disabled and send_fee_update returns the disabled
outcome at once: result None, no transaction submitted and zero network
calls. -/
theorem C7_disabled_no_network :
    ∀ (wa conn setupOk : Bool) (cfg : BridgeConfig) (fee : ℤ) (idx : ℚ)
      (envs : List TxEnv),
      cfg.private_key = "" ∨ cfg.rpc_url = "" ∨ cfg.contract_address = "" →
      bridge_enabled_flag wa cfg conn setupOk = false ∧
      send_fee_update (bridge_enabled_flag wa cfg conn setupOk) fee idx envs =
        ⟨none, [], []⟩ := by
  intro wa conn ok cfg fee idx envs h
  have hflag : bridge_enabled_flag wa cfg conn ok = false := by
    unfold bridge_enabled_flag
    split_ifs with h1 h2 h3 h4 h5 <;> try rfl
    rcases h with h | h | h
    · exact absurd h h3
    · exact absurd (Or.inl h) h2
    · exact absurd h h4
  refine ⟨hflag, ?_⟩
  rw [hflag]
  rfl

/-- C7, witness at a concrete configuration with an empty private key. -/
theorem C7_witness :
    bridge_enabled_flag true ⟨ "https://rpc.example" , "" , "0xdead" ⟩ true true = false ∧
    send_fee_update (bridge_enabled_flag true ⟨ "https://rpc.example" , "" , "0xdead" ⟩ true true)
        64 1500 [] = ⟨none, [], []⟩ :=
  C7_disabled_no_network true true true ⟨ "https://rpc.example" , "" , "0xdead" ⟩ 64 1500 []
    (Or.inl rfl)

/-- C8: when the observed gas price exceeds the configured cap, the built
transaction carries exactly the capped gas price, and the commit proceeds
identically to a commit whose observed price equals the cap: the high price
never aborts the attempt. -/
theorem C8_gas_cap :
    ∀ (env : TxEnv) (envs : List TxEnv) (fee : ℤ) (idx : ℚ),
      max_gas_price_wei < env.gas_price →
      (build_transaction env fee idx).gasPrice = max_gas_price_wei ∧
      send_fee_update true fee idx (env :: envs) =
        send_fee_update true fee idx ({ env with gas_price := max_gas_price_wei } :: envs) := by
  intro env envs fee idx h
  have hmin : min env.gas_price max_gas_price_wei = max_gas_price_wei :=
    min_eq_right (le_of_lt h)
  constructor
  · simp [build_transaction, hmin]
  · simp [send_fee_update, send_loop, send_attempt, build_transaction, hmin]

/-- Environment of a send attempt observing a gas price of 80 Gwei. -/
def env_gas80 : TxEnv :=
  { gas_price := 80000000000
    nonce := 7
    tx_hash := "0xfeed"
    submit_ok := true
    receipt := ReceiptOutcome.confirmed 12
    failed_calls := [] }

/-- C8, witness at the scenario observed price 80 Gwei against cap 50 Gwei. -/
theorem C8_witness :
    (build_transaction env_gas80 64 1500).gasPrice = max_gas_price_wei ∧
    send_fee_update true 64 1500 [env_gas80] =
      send_fee_update true 64 1500 [{ env_gas80 with gas_price := max_gas_price_wei }] :=
  C8_gas_cap env_gas80 [] 64 1500
    (by norm_num [max_gas_price_wei, MAX_GAS_PRICE_GWEI, env_gas80])

/-- C9, counterexample to the claim as stated: with the stored identity aged
exactly the configured lifetime (168 hours), get_session returns the current
identity unchanged instead of constructing and storing a new one. -/
theorem C9_counterexample :
    get_session ⟨some 7, some 0⟩ 168 8 = (7, ⟨some 7, some 0⟩) ∧
    (168 : ℚ) - 0 = SESSION_DURATION_HOURS ∧
    get_session ⟨some 7, some 0⟩ 168 8 ≠ (8, ⟨some 8, some 168⟩) := by
  have h : get_session ⟨some 7, some 0⟩ 168 8 = (7, ⟨some 7, some 0⟩) := by
    norm_num [get_session, SESSION_DURATION_HOURS]
  refine ⟨h, by norm_num [SESSION_DURATION_HOURS], ?_⟩
  rw [h]
  simp

/-- C9, amended: get_session keeps the stored identity whenever its age is at
most the configured lifetime — including an age exactly equal to it — and
constructs and stores a new identity exactly when the age strictly exceeds
the lifetime. -/
theorem C9_session_rotation :
    ∀ (s : ℕ) (start now : ℚ) (fresh : ℕ),
      (now - start ≤ SESSION_DURATION_HOURS →
        get_session ⟨some s, some start⟩ now fresh = (s, ⟨some s, some start⟩)) ∧
      (SESSION_DURATION_HOURS < now - start →
        get_session ⟨some s, some start⟩ now fresh = (fresh, ⟨some fresh, some now⟩)) := by
  intro s start now fresh
  constructor
  · intro h
    simp [get_session, not_lt.mpr h]
  · intro h
    simp [get_session, h]

/-- C9, witness for the amended theorem at concrete times. -/
theorem C9_witness :
    get_session ⟨some 7, some 0⟩ 100 8 = (7, ⟨some 7, some 0⟩) ∧
    get_session ⟨some 7, some 0⟩ 200 8 = (8, ⟨some 8, some 200⟩) :=
  ⟨(C9_session_rotation 7 0 100 8).1 (by norm_num [SESSION_DURATION_HOURS]),
   (C9_session_rotation 7 0 200 8).2 (by norm_num [SESSION_DURATION_HOURS])⟩

/-- C10: at an index value exactly equal to the baseline the explanation
classifies the market on the high side, producing the INDEX HIGH
classification, not the low one. -/
theorem C10_boundary_high :
    get_fee_explanation_trend INDEX_BASELINE = "INDEX HIGH -> Market good -> Low fee" := by
  norm_num [get_fee_explanation_trend, INDEX_BASELINE]
